import Mathlib

/-!
Verification of the polytope-name algebra of miratope-rs.

The repository contains two iterations of the same subsystem:
  * `src/src/lang/name.rs`      — embedded below in namespace `V1`;
  * `src/miratope-lang/src/name.rs` — embedded below in namespace `V2`.

Modelling conventions, shared by both embeddings:
  * A geometric `Point` is only ever compared for (exact or tolerance-based)
    equality by the name algebra, never inspected otherwise, so it is modelled
    by an arbitrary type with decidable equality (`Pt := Int`).
  * The `NameData` presence wrappers (`AbsData` / `ConData`) are modelled by
    `Option`: `none` is the phantom abstract-regime wrapper, `some v` is the
    concrete-regime wrapper holding `v`.  The regime marker `T::is_abstract()`
    becomes an explicit `abs : Bool` argument of every generic function.
  * Rust functions that can panic are embedded as `Option`-returning
    functions, `none` modelling the panic.
  * In `V1` the constructors `pyramid`/`multipyramid` (and the prism and
    tegum analogues) are mutually recursive in a way that does not terminate
    on some inputs, so they are embedded with an explicit fuel parameter;
    `none` means the fuel ran out.
  * Rust's `sort_by` is a stable sort; it is modelled by Mathlib's
    `List.insertionSort`, which is also stable, and therefore produces the
    same list on every input.
  * Facet counts live in `usize`; every value reachable in the claims is far
    below `2 ^ 64`, so they are modelled as plain `Nat` except for the one
    `u32` power computation, where the wrap-around is kept explicitly.
-/

/-- Model of the geometric point type: the name algebra only compares points
for equality, so any type with decidable equality is adequate. -/
abbrev Pt := Int

/-- Sequences a list of optional values, propagating the first `none`.  This
models a Rust loop (or `map ... collect`) in which each step may panic or
early-return via `?`. -/
def seqOpt {α : Type} : List (Option α) → Option (List α)
  | [] => some []
  | none :: _ => none
  | some a :: os => (seqOpt os).map (a :: ·)

/-- Models `T::DataBool::new v` / `T::DataPoint::new v`: the abstract-regime
wrapper (`AbsData`) discards the value, the concrete one (`ConData`) stores
it. -/
def mkData {α : Type} (abs : Bool) (v : α) : Option α :=
  if abs then none else some v

/-- Models `NameData::contains`: `AbsData` pretends to contain every value,
`ConData` compares the stored value. -/
def containsData {α : Type} [DecidableEq α] : Option α → α → Bool
  | none, _ => true
  | some w, v => decide (w = v)

/-- Models `PartialEq` on the `NameData` wrappers: any two `AbsData` compare
equal (and `AbsData` satisfies any comparison), `ConData` compares the stored
values. -/
def eqData {α : Type} [DecidableEq α] : Option α → Option α → Bool
  | none, _ => true
  | _, none => true
  | some a, some b => decide (a = b)

/-- Models the Rust cast `as usize` applied to an `isize` (two's-complement
reinterpretation of a 64-bit value). -/
def usizeOfIsize (r : Int) : Nat := (r % (2 ^ 64)).toNat

namespace V1

/-- The name tree of `src/src/lang/name.rs`.  `regular` fields are
`T::DataBool` (modelled `Option Bool`), the dual `center` is `T::DataPoint`
(modelled `Option Pt`). -/
inductive Name where
  | Nullitope
  | Point
  | Dyad
  | Triangle (regular : Option Bool)
  | Square
  | Rectangle
  | Polygon (regular : Option Bool) (n : Nat)
  | Orthodiagonal
  | Pyramid (base : Name)
  | Prism (base : Name)
  | Tegum (base : Name)
  | Multipyramid (bases : List Name)
  | Multiprism (bases : List Name)
  | Multitegum (bases : List Name)
  | Multicomb (bases : List Name)
  | Dual (base : Name) (center : Option Pt)
  | Simplex (regular : Option Bool) (rank : Nat)
  | Hyperblock (regular : Option Bool) (rank : Nat)
  | Orthoplex (regular : Option Bool) (rank : Nat)
  | Generic (n : Nat) (rank : Nat)
  | Compound (components : List (Nat × Name))

/-- `Name::rank`, with `Name::rank_product` inlined at the four `Multi*`
variants (offset `1` for multipyramid, `0` for multiprism/multitegum, `-1`
for multicomb).  On `Compound(vec![])` the Rust code panics on the indexing
`components[0]`; no claim below depends on that input, and the embedding
returns `none` there. -/
def Name.rank : Name → Option Int
  | .Nullitope => some (-1)
  | .Point => some 0
  | .Dyad => some 1
  | .Triangle _ => some 2
  | .Square => some 2
  | .Rectangle => some 2
  | .Orthodiagonal => some 2
  | .Polygon _ _ => some 2
  | .Simplex _ rank => some (rank : Int)
  | .Hyperblock _ rank => some (rank : Int)
  | .Orthoplex _ rank => some (rank : Int)
  | .Dual base _ => base.rank
  | .Generic _ rank => some (rank : Int)
  | .Pyramid base => base.rank.map (· + 1)
  | .Prism base => base.rank.map (· + 1)
  | .Tegum base => base.rank.map (· + 1)
  | .Multipyramid bases =>
      (seqOpt (bases.attach.map (fun ⟨b, _⟩ => b.rank))).map
        (fun rs => -1 + (rs.map (· + 1)).sum)
  | .Multiprism bases =>
      (seqOpt (bases.attach.map (fun ⟨b, _⟩ => b.rank))).map (fun rs => rs.sum)
  | .Multitegum bases =>
      (seqOpt (bases.attach.map (fun ⟨b, _⟩ => b.rank))).map (fun rs => rs.sum)
  | .Multicomb bases =>
      (seqOpt (bases.attach.map (fun ⟨b, _⟩ => b.rank))).map
        (fun rs => 1 + (rs.map (· - 1)).sum)
  | .Compound [] => none
  | .Compound ((_, nm) :: _) => nm.rank

/-- `Name::facet_count`.  `Dual` is the one deliberately unknown case.  The
`Orthoplex` case keeps the `u32` wrap-around of `2u32.pow(rank as u32)`
explicit; all other arithmetic stays far below the machine widths in every
input the claims touch. -/
def Name.facet_count : Name → Option Nat
  | .Nullitope => some 0
  | .Point => some 1
  | .Dyad => some 2
  | .Triangle _ => some 3
  | .Square => some 4
  | .Rectangle => some 4
  | .Orthodiagonal => some 4
  | .Polygon _ n => some n
  | .Generic n _ => some n
  | .Simplex _ rank => some (rank + 1)
  | .Hyperblock _ rank => some (rank * 2)
  | .Orthoplex _ rank => some ((2 ^ (rank % 2 ^ 32)) % 2 ^ 32)
  | .Multipyramid bases =>
      (seqOpt (bases.attach.map (fun ⟨b, _⟩ => b.facet_count))).map
        (fun cs => cs.foldl (· * ·) 1)
  | .Multitegum bases =>
      (seqOpt (bases.attach.map (fun ⟨b, _⟩ => b.facet_count))).map
        (fun cs => cs.foldl (· * ·) 1)
  | .Multiprism bases =>
      (seqOpt (bases.attach.map (fun ⟨b, _⟩ => b.facet_count))).map
        (fun cs => cs.foldl (· + ·) 0)
  | .Multicomb bases =>
      (seqOpt (bases.attach.map (fun ⟨b, _⟩ => b.facet_count))).map
        (fun cs => cs.foldl (· + ·) 0)
  | .Pyramid base => base.facet_count.map (· + 1)
  | .Prism base => base.facet_count.map (fun c => 2 * (c + 1))
  | .Tegum base => base.facet_count.map (fun c => 2 * c)
  | .Compound components =>
      (seqOpt (components.attach.map (fun ⟨(rep, nm), _⟩ => nm.facet_count.map (rep * ·)))).map
        (fun cs => cs.foldl (· + ·) 0)
  | .Dual _ _ => none
termination_by n => sizeOf n
decreasing_by
  all_goals
    simp_wf
  all_goals
    rename_i mem
  all_goals
    have h := List.sizeOf_lt_of_mem mem
  all_goals
    simp only [Prod.mk.sizeOf_spec] at h
  all_goals
    omega

/-- Discriminator for the `Multipyramid` variant (used to model
`std::mem::discriminant` equality in `is_valid`). -/
def Name.is_multipyramid : Name → Bool
  | .Multipyramid _ => true
  | _ => false

/-- Discriminator for the `Multiprism` variant. -/
def Name.is_multiprism : Name → Bool
  | .Multiprism _ => true
  | _ => false

/-- Discriminator for the `Multitegum` variant. -/
def Name.is_multitegum : Name → Bool
  | .Multitegum _ => true
  | _ => false

/-- Discriminator for the `Multicomb` variant. -/
def Name.is_multicomb : Name → Bool
  | .Multicomb _ => true
  | _ => false

/-- Discriminator for the `Dual` variant. -/
def Name.is_dual : Name → Bool
  | .Dual _ _ => true
  | _ => false

/-- `Name::is_valid`: polygons need at least 5 sides, the parametric atoms
need rank at least 3, a `Multi*` node needs at least two bases none of which
shares its own discriminant, and `Generic` needs facet count at least 2 and
rank between 3 and 20. -/
def Name.is_valid : Name → Bool
  | .Polygon _ n => decide (5 ≤ n)
  | .Simplex _ rank => decide (3 ≤ rank)
  | .Hyperblock _ rank => decide (3 ≤ rank)
  | .Orthoplex _ rank => decide (3 ≤ rank)
  | .Multipyramid bases =>
      decide (2 ≤ bases.length) && bases.all (fun b => !b.is_multipyramid)
  | .Multiprism bases =>
      decide (2 ≤ bases.length) && bases.all (fun b => !b.is_multiprism)
  | .Multitegum bases =>
      decide (2 ≤ bases.length) && bases.all (fun b => !b.is_multitegum)
  | .Multicomb bases =>
      decide (2 ≤ bases.length) && bases.all (fun b => !b.is_multicomb)
  | .Generic n rank => decide (2 ≤ n) && decide (3 ≤ rank) && decide (rank ≤ 20)
  | _ => true

/-- `Name::generic(n, d)`: hardcoded names below rank 3, `Generic` above. -/
def Name.generic (abs : Bool) (n : Nat) (d : Int) : Name :=
  if d = -1 then .Nullitope
  else if d = 0 then .Point
  else if d = 1 then .Dyad
  else if d = 2 then
    if n = 3 then .Triangle (mkData abs false)
    else if n = 4 then
      if abs then .Square else .Polygon (mkData abs false) 4
    else .Polygon (mkData abs false) n
  else .Generic n (usizeOfIsize d)

/-- `Name::rectangle`. -/
def Name.rectangle (abs : Bool) : Name :=
  if abs then .Square else .Rectangle

/-- `Name::orthodiagonal`. -/
def Name.orthodiagonal (abs : Bool) : Name :=
  if abs then .Square else .Orthodiagonal

/-- `Name::simplex(regular, rank)` (rank is an `isize` in the source). -/
def Name.simplex (regular : Option Bool) (rank : Int) : Name :=
  if rank = -1 then .Nullitope
  else if rank = 0 then .Point
  else if rank = 1 then .Dyad
  else if rank = 2 then .Triangle regular
  else .Simplex regular (usizeOfIsize rank)

/-- `Name::cuboid(regular, rank)`. -/
def Name.cuboid (regular : Option Bool) (rank : Int) : Name :=
  if rank = -1 then .Nullitope
  else if rank = 0 then .Point
  else if rank = 1 then .Dyad
  else if rank = 2 then
    if containsData regular true then .Square else .Rectangle
  else .Hyperblock regular (usizeOfIsize rank)

/-- `Name::orthoplex(regular, rank)`. -/
def Name.orthoplex (regular : Option Bool) (rank : Int) : Name :=
  if rank = -1 then .Nullitope
  else if rank = 0 then .Point
  else if rank = 1 then .Dyad
  else if rank = 2 then
    if containsData regular true then .Square else .Orthodiagonal
  else .Orthoplex regular (usizeOfIsize rank)

/-- `Name::polygon(regular, n)`: a triangle for `n = 3`, otherwise a
`Generic` of rank 2 (the `regular` argument is dropped by the source in that
branch). -/
def Name.polygon (regular : Option Bool) (n : Nat) : Name :=
  if n = 3 then .Triangle regular else .Generic n 2

/-- Comparison of two `isize` values, mirroring Rust `Ord::cmp`. -/
def cmpI (a b : Int) : Ordering :=
  if a < b then .lt else if a = b then .eq else .gt

/-- Comparison of two `usize` values, mirroring Rust `Ord::cmp`. -/
def cmpN (a b : Nat) : Ordering :=
  if a < b then .lt else if a = b then .eq else .gt

/-- `Name::base_cmp`: compare primarily by rank (`unwrap_or(-2)`), then by
facet count (`unwrap_or(0)`). -/
def Name.base_cmp (base0 base1 : Name) : Ordering :=
  match cmpI (base0.rank.getD (-2)) (base1.rank.getD (-2)) with
  | .eq => cmpN (base0.facet_count.getD 0) (base1.facet_count.getD 0)
  | o => o

/-- The boolean "less or equal" relation induced by `base_cmp`, under which a
stable sort reproduces Rust's `sort_by(&Self::base_cmp)`. -/
def leBase (x y : Name) : Bool := !(Name.base_cmp x y == .gt)

/-- The propositional order under which `sortBases` sorts. -/
def rB (x y : Name) : Prop := leBase x y = true

instance : DecidableRel rB := fun x y => by unfold rB; infer_instance

/-- Models `new_bases.sort_by(&Self::base_cmp)`: Rust's `sort_by` is a stable
sort, and so is `List.insertionSort`, so both produce the identical list. -/
def sortBases (l : List Name) : List Name :=
  l.insertionSort rB

/-- One step of the base loop of `Name::multipyramid`: the state is the pair
`(new_bases, pyramid_count)`. -/
def pyrBaseStep (st : List Name × Nat) : Name → List Name × Nat
  | .Nullitope => st
  | .Point => (st.1, st.2 + 1)
  | .Dyad => (st.1, st.2 + 2)
  | .Triangle _ => (st.1, st.2 + 2)
  | .Simplex _ rank => (st.1, st.2 + rank + 1)
  | .Multipyramid extra => (st.1 ++ extra, st.2)
  | b => (st.1 ++ [b], st.2)

/-- One step of the base loop of `Name::multiprism`: a `none` state models
the early `return Self::Nullitope` triggered by a `Nullitope` base (once
taken, the remaining iterations are irrelevant). -/
def prismBaseStep : Option (List Name × Nat) → Name → Option (List Name × Nat)
  | none, _ => none
  | some _, .Nullitope => none
  | some st, .Point => some st
  | some st, .Dyad => some (st.1, st.2 + 1)
  | some st, .Square => some (st.1, st.2 + 2)
  | some st, .Rectangle => some (st.1, st.2 + 2)
  | some st, .Hyperblock _ rank => some (st.1, st.2 + rank)
  | some st, .Multiprism extra => some (st.1 ++ extra, st.2)
  | some st, b => some (st.1 ++ [b], st.2)

/-- One step of the base loop of `Name::multitegum` (note that `Rectangle`
is not absorbed here, only `Square` is). -/
def tegumBaseStep : Option (List Name × Nat) → Name → Option (List Name × Nat)
  | none, _ => none
  | some _, .Nullitope => none
  | some st, .Point => some st
  | some st, .Dyad => some (st.1, st.2 + 1)
  | some st, .Square => some (st.1, st.2 + 2)
  | some st, .Orthoplex _ rank => some (st.1, st.2 + rank)
  | some st, .Multitegum extra => some (st.1 ++ extra, st.2)
  | some st, b => some (st.1 ++ [b], st.2)

mutual

/-- `Name::pyramid`.  The fuel models the mutual recursion with
`multipyramid`, which does not terminate on some inputs (see
`C9`-adjacent remarks: `pyramid(Multipyramid(bases))` with only irreducible
bases loops forever); `none` means the fuel ran out. -/
def Name.pyramid (abs : Bool) : Nat → Name → Option Name
  | 0, _ => none
  | _ + 1, .Nullitope => some .Nullitope
  | _ + 1, .Point => some .Dyad
  | _ + 1, .Dyad => some (.Triangle (mkData abs false))
  | _ + 1, .Triangle regular => some (.Simplex regular 3)
  | _ + 1, .Simplex regular rank =>
      if abs || containsData regular false then some (.Simplex regular (rank + 1))
      else some (.Pyramid (.Simplex regular rank))
  | fuel + 1, .Pyramid base => Name.multipyramid abs fuel [base, .Dyad]
  | fuel + 1, .Multipyramid bases => Name.multipyramid abs fuel (bases ++ [.Point])
  | _ + 1, n => some (.Pyramid n)

/-- `Name::multipyramid`: absorb atoms into `pyramid_count`, splice nested
multipyramids, synthesize a simplex when two or more pyramid units were
absorbed, sort, collapse by length, and fold a single deferred pyramid unit
through `Name::pyramid`. -/
def Name.multipyramid (abs : Bool) : Nat → List Name → Option Name
  | 0, _ => none
  | fuel + 1, bases =>
      let st := bases.foldl pyrBaseStep ([], 0)
      let new_bases :=
        if 2 ≤ st.2 then st.1 ++ [Name.simplex (mkData abs false) ((st.2 : Int) - 1)]
        else st.1
      let sorted := sortBases new_bases
      let multipyramid : Name :=
        match sorted with
        | [] => .Nullitope
        | [b] => b
        | l => .Multipyramid l
      if st.2 = 1 then Name.pyramid abs fuel multipyramid else some multipyramid

end

mutual

/-- `Name::prism`, with the same fuel treatment as `Name::pyramid`. -/
def Name.prism (abs : Bool) : Nat → Name → Option Name
  | 0, _ => none
  | _ + 1, .Nullitope => some .Nullitope
  | _ + 1, .Point => some .Dyad
  | _ + 1, .Dyad => some (Name.rectangle abs)
  | _ + 1, .Rectangle => some (.Hyperblock (mkData abs false) 3)
  | _ + 1, .Hyperblock regular rank =>
      if abs || containsData regular false then some (.Hyperblock regular (rank + 1))
      else some (.Prism (.Hyperblock regular rank))
  | fuel + 1, .Prism base => Name.multiprism abs fuel [base, Name.rectangle abs]
  | fuel + 1, .Multiprism bases => Name.multiprism abs fuel (bases ++ [.Dyad])
  | _ + 1, n => some (.Prism n)

/-- `Name::multiprism`: a `Nullitope` base short-circuits the whole product
to `Nullitope`; otherwise absorb, splice, synthesize a cuboid, sort,
collapse, and fold a single deferred prism unit through `Name::prism`. -/
def Name.multiprism (abs : Bool) : Nat → List Name → Option Name
  | 0, _ => none
  | fuel + 1, bases =>
      match bases.foldl prismBaseStep (some ([], 0)) with
      | none => some .Nullitope
      | some st =>
          let new_bases :=
            if 2 ≤ st.2 then st.1 ++ [Name.cuboid (mkData abs false) (st.2 : Int)]
            else st.1
          let sorted := sortBases new_bases
          let multiprism : Name :=
            match sorted with
            | [] => .Point
            | [b] => b
            | l => .Multiprism l
          if st.2 = 1 then Name.prism abs fuel multiprism else some multiprism

end

mutual

/-- `Name::tegum`, with the same fuel treatment as `Name::pyramid`. -/
def Name.tegum (abs : Bool) : Nat → Name → Option Name
  | 0, _ => none
  | _ + 1, .Nullitope => some .Nullitope
  | _ + 1, .Point => some .Dyad
  | _ + 1, .Dyad => some (Name.orthodiagonal abs)
  | _ + 1, .Orthodiagonal => some (.Orthoplex (mkData abs false) 3)
  | _ + 1, .Orthoplex regular rank =>
      if abs || containsData regular false then some (.Orthoplex regular (rank + 1))
      else some (.Tegum (.Orthoplex regular rank))
  | fuel + 1, .Tegum base => Name.multitegum abs fuel [base, .Orthodiagonal]
  | fuel + 1, .Multitegum bases => Name.multitegum abs fuel (bases ++ [.Dyad])
  | _ + 1, n => some (.Tegum n)

/-- `Name::multitegum`: same folding scheme as `multiprism`, with orthoplex
synthesis. -/
def Name.multitegum (abs : Bool) : Nat → List Name → Option Name
  | 0, _ => none
  | fuel + 1, bases =>
      match bases.foldl tegumBaseStep (some ([], 0)) with
      | none => some .Nullitope
      | some st =>
          let new_bases :=
            if 2 ≤ st.2 then st.1 ++ [Name.orthoplex (mkData abs false) (st.2 : Int)]
            else st.1
          let sorted := sortBases new_bases
          let multitegum : Name :=
            match sorted with
            | [] => .Point
            | [b] => b
            | l => .Multitegum l
          if st.2 = 1 then Name.tegum abs fuel multitegum else some multitegum

end

/-- One step of the base loop of `Name::multicomb`: only nested multicombs
are flattened, every other base (the `Nullitope` included) is kept. -/
def combBaseStep (st : List Name) : Name → List Name
  | .Multicomb extra => st ++ extra
  | b => st ++ [b]

/-- `Name::multicomb`: flatten, sort, collapse by length.  There is no
absorption step and no `Nullitope` short-circuit in the source. -/
def Name.multicomb (bases : List Name) : Name :=
  match sortBases (bases.foldl combBaseStep []) with
  | [] => .Point
  | [b] => b
  | l => .Multicomb l

mutual

/-- `Name::dual`.  A `none` result models a PANIC: the only panicking spot is
the stacked-dual branch, whose `base.facet_count().unwrap()` and
`base.rank().unwrap()` blow up when the inner base's facet count or rank is
unknown.  Note two faithful oddities of this iteration: the concrete-regime
dual of `Pyramid(base)` and of `Tegum(base)` both wrap `Prism(base)` (not the
original node), and the dual of a `Multipyramid` distributes over the bases
in both regimes. -/
def Name.dual (abs : Bool) : Name → Option Pt → Option Name
  | .Nullitope, _ => some .Nullitope
  | .Point, _ => some .Point
  | .Dyad, _ => some .Dyad
  | .Dual base original_center, center =>
      if eqData center original_center then some base
      else
        base.facet_count.bind (fun n =>
          base.rank.map (fun r => .Generic n (usizeOfIsize r)))
  | .Square, _ => some (Name.orthodiagonal abs)
  | .Rectangle, _ => some (Name.orthodiagonal abs)
  | .Orthodiagonal, _ => some (Name.polygon (mkData abs false) 4)
  | .Simplex _ rank, _ => some (.Simplex (mkData abs false) rank)
  | .Hyperblock _ rank, _ => some (.Orthoplex (mkData abs false) rank)
  | .Orthoplex _ rank, _ => some (.Hyperblock (mkData abs false) rank)
  | .Generic n rank, center =>
      if rank ≤ 2 then some (.Generic n rank)
      else some (.Dual (.Generic n rank) center)
  | .Pyramid base, center =>
      if abs then (Name.dual abs base center).map .Pyramid
      else some (.Dual (.Prism base) center)
  | .Prism base, center =>
      if abs then (Name.dual abs base center).map .Tegum
      else some (.Dual (.Prism base) center)
  | .Tegum base, center =>
      if abs then (Name.dual abs base center).map .Prism
      else some (.Dual (.Prism base) center)
  | .Multipyramid bases, center =>
      (Name.dualList abs bases center).map .Multipyramid
  | .Multiprism bases, center =>
      if abs then (Name.dualList abs bases center).map .Multitegum
      else some (.Dual (.Multiprism bases) center)
  | .Multitegum bases, center =>
      if abs then (Name.dualList abs bases center).map .Multiprism
      else some (.Dual (.Multitegum bases) center)
  | .Multicomb bases, center =>
      if abs then (Name.dualList abs bases center).map .Multicomb
      else some (.Dual (.Multicomb bases) center)
  | n, center => some (.Dual n center)

/-- Models `bases.into_iter().map(|base| base.dual(center.clone())).collect()`
with panic propagation. -/
def Name.dualList (abs : Bool) : List Name → Option Pt → Option (List Name)
  | [], _ => some []
  | b :: bs, center =>
      (Name.dual abs b center).bind (fun d =>
        (Name.dualList abs bs center).map (d :: ·))

end

end V1

namespace V2

/-- `Regular`: whether a name refers to a concrete regular polytope and, if
so, its center. -/
inductive Regular where
  | Yes (center : Pt)
  | No
deriving DecidableEq

/-- `Quadrilateral`: any quadrilateral that is not irregular. -/
inductive Quadrilateral where
  | Square
  | Rectangle
  | Orthodiagonal
deriving DecidableEq

/-- The name tree of `src/miratope-lang/src/name.rs`.  `regular` fields are
`T::DataRegular` (modelled `Option Regular`), `quad` fields are
`T::DataQuadrilateral` (modelled `Option Quadrilateral`), centers are
`T::DataPoint` (modelled `Option Pt`).  This iteration uses the rank
convention shifted by one (the nullitope has rank 0). -/
inductive Name where
  | Nullitope
  | Point
  | Dyad
  | Triangle (regular : Option Regular)
  | Quadrilateral (quad : Option Quadrilateral)
  | Polygon (regular : Option Regular) (n : Nat)
  | Pyramid (base : Name)
  | Prism (base : Name)
  | Tegum (base : Name)
  | Multipyramid (bases : List Name)
  | Multiprism (bases : List Name)
  | Multitegum (bases : List Name)
  | Multicomb (bases : List Name)
  | Antiprism (base : Name)
  | Antitegum (base : Name) (center : Option Pt)
  | Petrial (base : Name)
  | Dual (base : Name) (center : Option Pt)
  | Ditope (base : Name) (rank : Nat)
  | Hosotope (base : Name) (rank : Nat)
  | Simplex (regular : Option Regular) (rank : Nat)
  | Cuboid (regular : Option Regular)
  | Hyperblock (regular : Option Regular) (rank : Nat)
  | Orthoplex (regular : Option Regular) (rank : Nat)
  | Generic (facet_count : Nat) (rank : Nat)
  | Small (base : Name)
  | Great (base : Name)
  | Stellated (base : Name)

/-- Models `Default::default()` for `T::DataRegular`: the abstract wrapper is
empty, the concrete one defaults to `Regular::No`. -/
def defaultRegular (abs : Bool) : Option Regular :=
  if abs then none else some .No

/-- Models `Default::default()` for `T::DataQuadrilateral` (the default
quadrilateral is a square). -/
def defaultQuad (abs : Bool) : Option Quadrilateral :=
  if abs then none else some .Square

/-- Models `NameData::is_or(&value, other)`: `AbsData` falls back to `other`,
`ConData` compares the stored value. -/
def isOr {α : Type} [DecidableEq α] : Option α → α → Bool → Bool
  | none, _, other => other
  | some inner, v, _ => decide (inner = v)

/-- Models `NameData::eq_or(&value, other)`: `AbsData` falls back to `other`;
`ConData` compares against `value.unwrap_ref()`, which PANICS (here `none`)
when `value` is an `AbsData`. -/
def eqOr {α : Type} [DecidableEq α] : Option α → Option α → Bool → Option Bool
  | none, _, other => some other
  | some inner, some v, _ => some (decide (inner = v))
  | some _, none, _ => none

/-- Models the condition of the `regular_dual!` macro: a regular polytope
keeps a regular dual exactly when the supplied center matches the recorded
center within `Float::EPS`.  The tolerance test
`(c - original_center).norm() < EPS` is floating-point geometry, irrelevant
to every claim, and is abstracted as the parameter `nearEq`; `none` models
the panic of `center.apply` on phantom data. -/
def regularMatch (nearEq : Pt → Pt → Bool) : Option Regular → Option Pt → Option Bool
  | none, _ => some true
  | some .No, _ => some true
  | some (.Yes oc), some c => some (nearEq c oc)
  | some (.Yes _), none => none

/-- `Name::square`. -/
def Name.square (abs : Bool) : Name := .Quadrilateral (defaultQuad abs)

/-- `Name::rectangle`. -/
def Name.rectangle (abs : Bool) : Name :=
  .Quadrilateral (mkData abs Quadrilateral.Rectangle)

/-- `Name::orthodiagonal`. -/
def Name.orthodiagonal (abs : Bool) : Name :=
  .Quadrilateral (mkData abs Quadrilateral.Orthodiagonal)

/-- `Name::polygon(regular, n)`: triangles and regular quadrilaterals get
their hardcoded names. -/
def Name.polygon (abs : Bool) (regular : Option Regular) (n : Nat) : Name :=
  if n = 3 then .Triangle regular
  else if n = 4 then
    if isOr regular .No false then .Polygon regular 4 else Name.square abs
  else .Polygon regular n

/-- `Name::simplex(regular, rank)`. -/
def Name.simplex (regular : Option Regular) (rank : Nat) : Name :=
  if rank = 0 then .Nullitope
  else if rank = 1 then .Point
  else if rank = 2 then .Dyad
  else if rank = 3 then .Triangle regular
  else .Simplex regular rank

/-- `Name::hyperblock(regular, rank)`. -/
def Name.hyperblock (abs : Bool) (regular : Option Regular) (rank : Nat) : Name :=
  if rank = 0 then .Nullitope
  else if rank = 1 then .Point
  else if rank = 2 then .Dyad
  else if rank = 3 then
    if isOr regular .No false then Name.rectangle abs else Name.square abs
  else if rank = 4 then .Cuboid regular
  else .Hyperblock regular rank

/-- `Name::orthoplex(regular, rank)`. -/
def Name.orthoplex (abs : Bool) (regular : Option Regular) (rank : Nat) : Name :=
  if rank = 0 then .Nullitope
  else if rank = 1 then .Point
  else if rank = 2 then .Dyad
  else if rank = 3 then
    if isOr regular .No false then Name.orthodiagonal abs else Name.square abs
  else .Orthoplex regular rank

/-- `Name::generic(n, rank)`. -/
def Name.generic (abs : Bool) (n : Nat) (rank : Nat) : Name :=
  if rank = 0 then .Nullitope
  else if rank = 1 then .Point
  else if rank = 2 then .Dyad
  else if rank = 3 then Name.polygon abs (defaultRegular abs) n
  else .Generic n rank

/-- `Name::is_valid` of the second iteration. -/
def Name.is_valid (n : Name) : Bool :=
  match n with
  | .Polygon regular k =>
      if k = 2 ∨ 5 ≤ k then true
      else if k = 4 then isOr regular .No false
      else false
  | .Simplex _ rank => decide (4 ≤ rank)
  | .Orthoplex _ rank => decide (4 ≤ rank)
  | .Hyperblock _ rank => decide (5 ≤ rank)
  | .Multipyramid bases =>
      decide (2 ≤ bases.length) && bases.all (fun b =>
        match b with | .Multipyramid _ => false | _ => true)
  | .Multiprism bases =>
      decide (2 ≤ bases.length) && bases.all (fun b =>
        match b with | .Multiprism _ => false | _ => true)
  | .Multitegum bases =>
      decide (2 ≤ bases.length) && bases.all (fun b =>
        match b with | .Multitegum _ => false | _ => true)
  | .Multicomb bases =>
      decide (2 ≤ bases.length) && bases.all (fun b =>
        match b with | .Multicomb _ => false | _ => true)
  | .Generic facet_count rank =>
      decide (2 ≤ facet_count) && decide (4 ≤ rank) && decide (rank ≤ 21)
  | _ => true

/-- One step of the base loop of this iteration's `Name::multipyramid`. -/
def pyrBaseStep (st : List Name × Nat) : Name → List Name × Nat
  | .Nullitope => st
  | .Point => (st.1, st.2 + 1)
  | .Dyad => (st.1, st.2 + 2)
  | .Triangle _ => (st.1, st.2 + 3)
  | .Simplex _ rank => (st.1, st.2 + rank)
  | .Multipyramid extra => (st.1 ++ extra, st.2)
  | b => (st.1 ++ [b], st.2)

/-- `Name::multipyramid` of the second iteration: same absorption scheme as
`V1` (with the shifted rank convention) but no sorting, and a single
deferred pyramid unit is applied by direct `Pyramid` construction, so the
function is total. -/
def Name.multipyramid (abs : Bool) (bases : List Name) : Name :=
  let st := bases.foldl pyrBaseStep ([], 0)
  let new_bases :=
    if 2 ≤ st.2 then st.1 ++ [Name.simplex (defaultRegular abs) st.2] else st.1
  let multipyramid : Name :=
    match new_bases with
    | [] => .Nullitope
    | [b] => b
    | l => .Multipyramid l
  if st.2 = 1 then .Pyramid multipyramid else multipyramid

/-- One step of the base loop of this iteration's `Name::multicomb`. -/
def combBaseStep (st : List Name) : Name → List Name
  | .Multicomb extra => st ++ extra
  | b => st ++ [b]

/-- `Name::multicomb` of the second iteration: flatten and collapse by
length; no sorting and no `Nullitope` short-circuit. -/
def Name.multicomb (bases : List Name) : Name :=
  match bases.foldl combBaseStep [] with
  | [] => .Point
  | [b] => b
  | l => .Multicomb l

/-- `Name::pyramid` of the second iteration.  Total: the `Multipyramid`
constructor no longer calls back into `pyramid`.  In the abstract regime a
triangle or simplex is treated as (potentially) regular (`is_or` falls back
to `false`), so it is kept wrapped in a `Pyramid` node. -/
def Name.pyramid (abs : Bool) : Name → Name
  | .Nullitope => .Point
  | .Point => .Dyad
  | .Dyad => .Triangle (defaultRegular abs)
  | .Triangle regular =>
      if isOr regular .No false then .Simplex (defaultRegular abs) 4
      else .Pyramid (.Triangle regular)
  | .Simplex regular rank =>
      if isOr regular .No false then .Simplex (defaultRegular abs) (rank + 1)
      else .Pyramid (.Simplex regular rank)
  | .Pyramid base => Name.multipyramid abs [.Dyad, base]
  | .Multipyramid bases => Name.multipyramid abs (bases ++ [.Point])
  | n => .Pyramid n

mutual

/-- `Name::dual` of the second iteration.  The caller supplies the facet
count and rank of the polytope being named (`dual(self, center, facet_count,
rank)`); a mismatched stacked dual becomes `Generic` from those supplied
values.  A `none` result models a PANIC inside `NameData` (`unwrap_ref` /
`apply` on phantom data), which is unreachable as long as a tree does not
mix the regimes. -/
def Name.dual (abs : Bool) (nearEq : Pt → Pt → Bool) :
    Name → Option Pt → Nat → Nat → Option Name
  | .Nullitope, _, _, _ => some .Nullitope
  | .Point, _, _, _ => some .Point
  | .Dyad, _, _, _ => some .Dyad
  | .Triangle regular, center, _, _ =>
      (regularMatch nearEq regular center).map (fun ok =>
        if ok then .Triangle regular else .Triangle (defaultRegular abs))
  | .Quadrilateral quad, _, _, _ =>
      if isOr quad .Orthodiagonal true then
        some (Name.polygon abs (defaultRegular abs) 4)
      else some (Name.orthodiagonal abs)
  | .Dual base original_center, center, facet_count, rank =>
      (eqOr center original_center true).map (fun e =>
        if e then base else .Generic facet_count rank)
  | .Polygon regular n, center, _, _ =>
      (regularMatch nearEq regular center).map (fun ok =>
        if ok then .Polygon regular n else .Polygon (defaultRegular abs) n)
  | .Simplex regular rank, center, _, _ =>
      (regularMatch nearEq regular center).map (fun ok =>
        if ok then .Simplex regular rank else .Simplex (defaultRegular abs) rank)
  | .Hyperblock regular rank, center, _, _ =>
      (regularMatch nearEq regular center).map (fun ok =>
        if ok then .Orthoplex regular rank else .Orthoplex (defaultRegular abs) rank)
  | .Orthoplex regular rank, center, _, _ =>
      (regularMatch nearEq regular center).map (fun ok =>
        if ok then .Hyperblock regular rank else .Hyperblock (defaultRegular abs) rank)
  | .Pyramid base, center, facet_count, rank =>
      if abs then (Name.dual abs nearEq base center facet_count rank).map .Pyramid
      else some (.Dual (.Pyramid base) center)
  | .Prism base, center, facet_count, rank =>
      if abs then (Name.dual abs nearEq base center facet_count rank).map .Tegum
      else some (.Dual (.Prism base) center)
  | .Tegum base, center, facet_count, rank =>
      if abs then (Name.dual abs nearEq base center facet_count rank).map .Prism
      else some (.Dual (.Tegum base) center)
  | .Antiprism base, center, _, _ => some (.Antitegum base center)
  | .Antitegum base original_center, center, _, _ =>
      (eqOr center original_center true).map (fun e =>
        if e then .Antiprism base
        else .Dual (.Antitegum base original_center) center)
  | .Multipyramid bases, center, facet_count, rank =>
      if abs then (Name.dualList abs nearEq bases center facet_count rank).map .Multipyramid
      else some (.Dual (.Multipyramid bases) center)
  | .Multiprism bases, center, facet_count, rank =>
      if abs then (Name.dualList abs nearEq bases center facet_count rank).map .Multitegum
      else some (.Dual (.Multiprism bases) center)
  | .Multitegum bases, center, facet_count, rank =>
      if abs then (Name.dualList abs nearEq bases center facet_count rank).map .Multiprism
      else some (.Dual (.Multitegum bases) center)
  | .Multicomb bases, center, facet_count, rank =>
      if abs then (Name.dualList abs nearEq bases center facet_count rank).map .Multicomb
      else some (.Dual (.Multicomb bases) center)
  | n, center, _, _ => some (.Dual n center)

/-- Models the `map dual + collect` of the `multimodifier_dual!` macro, with
panic propagation. -/
def Name.dualList (abs : Bool) (nearEq : Pt → Pt → Bool) :
    List Name → Option Pt → Nat → Nat → Option (List Name)
  | [], _, _, _ => some []
  | b :: bs, center, facet_count, rank =>
      (Name.dual abs nearEq b center facet_count rank).bind (fun d =>
        (Name.dualList abs nearEq bs center facet_count rank).map (d :: ·))

end

/-- Discriminator for the `Simplex` variant of the second iteration (the
"canonical simplex atom"). -/
def Name.is_simplex_variant : Name → Bool
  | .Simplex _ _ => true
  | _ => false

end V2

namespace V1

/-- The sort key that `base_cmp` effectively compares: rank with the `-2`
sentinel, then facet count with the `0` sentinel. -/
def key (n : Name) : Int × Nat :=
  (n.rank.getD (-2), n.facet_count.getD 0)

/-- Discriminator for the `Nullitope` variant. -/
def Name.is_nullitope : Name → Bool
  | .Nullitope => true
  | _ => false

/-- Whether a name is irreducible for multipyramid folding: not one of the
absorbable atoms (`Nullitope`, `Point`, `Dyad`, `Triangle`, `Simplex`) and
not itself a `Multipyramid`, so the base loop just pushes it. -/
def irredPyr : Name → Bool
  | .Nullitope => false
  | .Point => false
  | .Dyad => false
  | .Triangle _ => false
  | .Simplex _ _ => false
  | .Multipyramid _ => false
  | _ => true

/-- Whether `Name::pyramid` takes one of its non-refolding branches on this
head: anything except the `Nullitope` (which it collapses) and the
`Pyramid`/`Multipyramid` heads (which re-enter `multipyramid`). -/
def headOkPyr : Name → Bool
  | .Nullitope => false
  | .Pyramid _ => false
  | .Multipyramid _ => false
  | _ => true

/-- Whether `Name::prism` takes one of its non-refolding branches on this
head. -/
def headOkPrism : Name → Bool
  | .Nullitope => false
  | .Prism _ => false
  | .Multiprism _ => false
  | _ => true

/-- Whether `Name::tegum` takes one of its non-refolding branches on this
head. -/
def headOkTegum : Name → Bool
  | .Nullitope => false
  | .Tegum _ => false
  | .Multitegum _ => false
  | _ => true

mutual

/-- No `Dual` node anywhere in the tree has another `Dual` node as its
immediate base. -/
def noDD : Name → Bool
  | .Pyramid b => noDD b
  | .Prism b => noDD b
  | .Tegum b => noDD b
  | .Multipyramid bs => noDDList bs
  | .Multiprism bs => noDDList bs
  | .Multitegum bs => noDDList bs
  | .Multicomb bs => noDDList bs
  | .Dual b _ => !b.is_dual && noDD b
  | .Compound comps => noDDPairs comps
  | _ => true

/-- `noDD` on every member of a list of names. -/
def noDDList : List Name → Bool
  | [] => true
  | b :: bs => noDD b && noDDList bs

/-- `noDD` on every component of a compound. -/
def noDDPairs : List (Nat × Name) → Bool
  | [] => true
  | (_, nm) :: rest => noDD nm && noDDPairs rest

end

theorem leBase_iff (x y : Name) :
    leBase x y = true ↔
      (key x).1 < (key y).1 ∨ ((key x).1 = (key y).1 ∧ (key x).2 ≤ (key y).2) := by
  unfold leBase Name.base_cmp cmpI cmpN key
  dsimp only
  split_ifs with h1 h2 h3 h4 <;>
    simp_all [show (Ordering.lt == Ordering.gt) = false from rfl,
      show (Ordering.eq == Ordering.gt) = false from rfl,
      show (Ordering.gt == Ordering.gt) = true from rfl] <;>
    omega

theorem rB_iff (x y : Name) :
    rB x y ↔ (key x).1 < (key y).1 ∨ ((key x).1 = (key y).1 ∧ (key x).2 ≤ (key y).2) :=
  leBase_iff x y

instance : IsTotal Name rB :=
  ⟨fun x y => by
    rw [rB_iff, rB_iff]
    omega⟩

instance : IsTrans Name rB :=
  ⟨fun x y z hxy hyz => by
    rw [rB_iff] at *
    omega⟩

theorem key_eq_of_rB_rB {x y : Name} (h1 : rB x y) (h2 : rB y x) : key x = key y := by
  rw [rB_iff] at h1 h2
  have : (key x).1 = (key y).1 ∧ (key x).2 = (key y).2 := by omega
  exact Prod.ext this.1 this.2

theorem sortBases_perm (l : List Name) : (sortBases l).Perm l :=
  List.perm_insertionSort rB l

theorem sortBases_sorted (l : List Name) : (sortBases l).Sorted rB :=
  List.sorted_insertionSort rB l

/-- A sorted list with pairwise-distinct sort keys is determined by its
multiset of elements: this is what makes `multipyramid` order-independent
when no two bases tie on `(rank, facet count)`. -/
theorem eq_of_perm_sorted_keys :
    ∀ {l₁ l₂ : List Name}, l₁.Perm l₂ → l₁.Sorted rB → l₂.Sorted rB →
      l₁.Pairwise (fun a b => key a ≠ key b) → l₁ = l₂ := by
  intro l₁
  induction l₁ with
  | nil =>
    intro l₂ hp _ _ _
    exact List.Perm.nil_eq hp
  | cons a t ih =>
    intro l₂ hp hs₁ hs₂ hk
    cases l₂ with
    | nil => exact absurd hp.symm (by simp)
    | cons b t₂ =>
      by_cases hab : a = b
      · subst hab
        have hpt : t.Perm t₂ := hp.cons_inv
        have := ih hpt (List.sorted_cons.mp hs₁).2 (List.sorted_cons.mp hs₂).2
          (List.pairwise_cons.mp hk).2
        rw [this]
      · exfalso
        have ha2 : a ∈ b :: t₂ := hp.mem_iff.mp (List.mem_cons_self a t)
        have hb1 : b ∈ a :: t := hp.symm.mem_iff.mp (List.mem_cons_self b t₂)
        have hat2 : a ∈ t₂ := by
          cases ha2 with
          | head => exact absurd rfl hab
          | tail _ h => exact h
        have hbt1 : b ∈ t := by
          cases hb1 with
          | head => exact absurd rfl (fun h => hab h.symm)
          | tail _ h => exact h
        have h1 : rB a b := (List.sorted_cons.mp hs₁).1 b hbt1
        have h2 : rB b a := (List.sorted_cons.mp hs₂).1 a hat2
        exact (List.pairwise_cons.mp hk).1 b hbt1 (key_eq_of_rB_rB h1 h2)

/-- Sorting is order-independent on lists without key ties. -/
theorem sortBases_eq_of_perm {l₁ l₂ : List Name} (hp : l₁.Perm l₂)
    (hk : l₁.Pairwise (fun a b => key a ≠ key b)) :
    sortBases l₁ = sortBases l₂ := by
  have hperm : (sortBases l₁).Perm (sortBases l₂) :=
    ((sortBases_perm l₁).trans hp).trans (sortBases_perm l₂).symm
  refine eq_of_perm_sorted_keys hperm (sortBases_sorted l₁) (sortBases_sorted l₂) ?_
  exact (List.Perm.pairwise_iff (fun h e => h e.symm) (sortBases_perm l₁)).mpr hk

theorem pyrBaseStep_irred (st : List Name × Nat) (b : Name) (h : irredPyr b = true) :
    pyrBaseStep st b = (st.1 ++ [b], st.2) := by
  cases b <;> simp_all [irredPyr, pyrBaseStep]

theorem foldl_pyr_irred :
    ∀ (l : List Name) (st : List Name × Nat), (∀ b ∈ l, irredPyr b = true) →
      l.foldl pyrBaseStep st = (st.1 ++ l, st.2) := by
  intro l
  induction l with
  | nil => intro st _; simp
  | cons b bs ih =>
    intro st h
    rw [List.foldl_cons, pyrBaseStep_irred st b (h b (by simp)),
      ih _ (fun x hx => h x (by simp [hx]))]
    simp

theorem foldl_pyr_filter :
    ∀ (l : List Name) (st : List Name × Nat),
      l.foldl pyrBaseStep st = (l.filter (fun b => !b.is_nullitope)).foldl pyrBaseStep st := by
  intro l
  induction l with
  | nil => intro st; rfl
  | cons b bs ih =>
    intro st
    cases b <;> simp [Name.is_nullitope, List.filter, pyrBaseStep, ih]

theorem foldl_prism_from_none : ∀ (l : List Name), l.foldl prismBaseStep none = none := by
  intro l
  induction l with
  | nil => rfl
  | cons b bs ih => rw [List.foldl_cons]; exact (by cases b <;> simp [prismBaseStep, ih])

theorem foldl_prism_nulli (l : List Name) (h : Name.Nullitope ∈ l) :
    ∀ st, l.foldl prismBaseStep st = none := by
  induction l with
  | nil => cases h
  | cons b bs ih =>
    intro st
    rcases List.mem_cons.mp h with hb | hb
    · rw [List.foldl_cons, ← hb]
      have : prismBaseStep st .Nullitope = none := by cases st <;> rfl
      rw [this, foldl_prism_from_none]
    · rw [List.foldl_cons]
      exact ih hb _

theorem foldl_tegum_from_none : ∀ (l : List Name), l.foldl tegumBaseStep none = none := by
  intro l
  induction l with
  | nil => rfl
  | cons b bs ih => rw [List.foldl_cons]; exact (by cases b <;> simp [tegumBaseStep, ih])

theorem foldl_tegum_nulli (l : List Name) (h : Name.Nullitope ∈ l) :
    ∀ st, l.foldl tegumBaseStep st = none := by
  induction l with
  | nil => cases h
  | cons b bs ih =>
    intro st
    rcases List.mem_cons.mp h with hb | hb
    · rw [List.foldl_cons, ← hb]
      have : tegumBaseStep st .Nullitope = none := by cases st <;> rfl
      rw [this, foldl_tegum_from_none]
    · rw [List.foldl_cons]
      exact ih hb _

theorem noDDList_iff : ∀ (l : List Name), noDDList l = true ↔ ∀ b ∈ l, noDD b = true := by
  intro l
  induction l with
  | nil => simp [noDDList]
  | cons b bs ih => simp [noDDList, ih]

end V1

theorem ordering_beq_lt_gt : (Ordering.lt == Ordering.gt) = false := rfl

theorem ordering_beq_eq_gt : (Ordering.eq == Ordering.gt) = false := rfl

theorem ordering_beq_gt_gt : (Ordering.gt == Ordering.gt) = true := rfl

theorem seqOpt_eq_none {α : Type} : ∀ (l : List (Option α)), none ∈ l → seqOpt l = none := by
  intro l
  induction l with
  | nil => intro h; cases h
  | cons o os ih =>
    intro h
    cases o with
    | none => simp [seqOpt]
    | some a =>
      have hos : none ∈ os := by
        rcases List.mem_cons.mp h with h' | h'
        · cases h'
        · exact h'
      simp [seqOpt, ih hos]


/-- C1, counterexample: `multipyramid` is not order-independent.  With bases
`a = Pyramid(Square)`, `b = Square`, `c = Generic{5,3}` — all of known rank —
`a` and `c` tie on the `(rank, facet count)` sort key, the stable sort keeps
tied bases in input order, and the two supplied orders produce different
trees. -/
theorem C1_counterexample :
    V1.Name.multipyramid true 1 [.Pyramid .Square, .Square, .Generic 5 3]
      = some (.Multipyramid [.Square, .Pyramid .Square, .Generic 5 3])
  ∧ V1.Name.multipyramid true 1 [.Generic 5 3, .Square, .Pyramid .Square]
      = some (.Multipyramid [.Square, .Generic 5 3, .Pyramid .Square])
  ∧ (V1.Name.Pyramid .Square).rank = some 3
  ∧ V1.Name.Square.rank = some 2
  ∧ (V1.Name.Generic 5 3).rank = some 3
  ∧ V1.Name.Multipyramid [.Square, .Pyramid .Square, .Generic 5 3]
      ≠ V1.Name.Multipyramid [.Square, .Generic 5 3, .Pyramid .Square] := by
  refine ⟨?_, ?_, ?_, by simp [V1.Name.rank], by simp [V1.Name.rank], by simp⟩ <;>
    simp [V1.Name.multipyramid, V1.pyrBaseStep, V1.sortBases, List.insertionSort,
      List.orderedInsert, V1.rB, V1.leBase, V1.Name.base_cmp, V1.cmpI, V1.cmpN,
      V1.Name.rank, V1.Name.facet_count, V1.Name.simplex, mkData, seqOpt,
      ordering_beq_lt_gt, ordering_beq_eq_gt, ordering_beq_gt_gt]

/-- C2, counterexample: in the second iteration's abstract regime, applying
`pyramid` three times to `Point` yields `Pyramid(Triangle)` — a `Pyramid`
wrapper, not the canonical simplex atom (abstract data makes the triangle
count as regular, so it is kept wrapped). -/
theorem C2_counterexample :
    V2.Name.pyramid true (V2.Name.pyramid true (V2.Name.pyramid true .Point))
      = .Pyramid (.Triangle none)
  ∧ V2.Name.is_simplex_variant (.Pyramid (.Triangle none)) = false := by
  constructor
  · simp [V2.Name.pyramid, V2.defaultRegular, V2.isOr]
  · rfl

/-- C3, counterexample: in the concrete regime the first iteration's dual of
`Pyramid(base)` does NOT return `Dual` of the same modifier node: it wraps
`Prism(base)` instead of `Pyramid(base)`. -/
theorem C3_counterexample :
    V1.Name.dual false (.Pyramid .Square) (some 0)
      = some (.Dual (.Prism .Square) (some 0))
  ∧ some (V1.Name.Dual (.Prism .Square) (some 0))
      ≠ some (V1.Name.Dual (.Pyramid .Square) (some 0)) := by
  constructor
  · simp [V1.Name.dual]
  · simp

/-- C4, counterexample: in the second iteration, dualizing a stacked `Dual`
with a different center returns a `Generic` built from the caller-supplied
facet count and rank, not from the inner base's own facet count and rank:
the same name yields different `Generic`s for different supplied counts
(the inner base here is a triangle, whose own facet count is 3). -/
theorem C4_counterexample :
    V2.Name.dual false (fun _ _ => true) (.Dual (.Triangle (some .No)) (some 0))
        (some 1) 99 7
      = some (.Generic 99 7)
  ∧ V2.Name.dual false (fun _ _ => true) (.Dual (.Triangle (some .No)) (some 0))
        (some 1) 50 7
      = some (.Generic 50 7)
  ∧ some (V2.Name.Generic 99 7) ≠ some (V2.Name.Generic 50 7)
  ∧ some (V2.Name.Generic 99 7) ≠ some (V2.Name.Generic 3 7) := by
  refine ⟨?_, ?_, by simp, by simp⟩ <;> simp [V2.Name.dual, V2.eqOr]

/-- C5, counterexample: rank additivity fails at the `Nullitope`, whose rank
is known (`-1`): `prism` and `tegum` (in both iterations by design, the
nullitope absorbing any product) and `pyramid` (in the first iteration) all
return `Nullitope` again, of rank `-1`, not `0`. -/
theorem C5_counterexample :
    V1.Name.rank .Nullitope = some (-1)
  ∧ V1.Name.prism true 1 .Nullitope = some .Nullitope
  ∧ V1.Name.tegum true 1 .Nullitope = some .Nullitope
  ∧ V1.Name.pyramid true 1 .Nullitope = some .Nullitope
  ∧ (some (-1) : Option Int) ≠ some (-1 + 1) := by
  refine ⟨by simp [V1.Name.rank], ?_, ?_, ?_, by simp⟩ <;>
    simp [V1.Name.prism, V1.Name.tegum, V1.Name.pyramid]

/-- C7, counterexample: `multicomb` does NOT short-circuit on a `Nullitope`
base in either iteration — the nullitope is kept as an ordinary base of the
resulting multicomb. -/
theorem C7_counterexample :
    V1.Name.multicomb [.Nullitope, .Square] = .Multicomb [.Nullitope, .Square]
  ∧ V2.Name.multicomb [.Nullitope, .Triangle none]
      = .Multicomb [.Nullitope, .Triangle none]
  ∧ V1.Name.Multicomb [.Nullitope, .Square] ≠ .Nullitope
  ∧ V2.Name.Multicomb [.Nullitope, .Triangle none] ≠ .Nullitope := by
  refine ⟨?_, ?_, by simp, by simp⟩
  · simp [V1.Name.multicomb, V1.combBaseStep, V1.sortBases, List.insertionSort,
      List.orderedInsert, V1.rB, V1.leBase, V1.Name.base_cmp, V1.cmpI, V1.cmpN,
      V1.Name.rank, V1.Name.facet_count, seqOpt,
      ordering_beq_lt_gt, ordering_beq_eq_gt, ordering_beq_gt_gt]
  · simp [V2.Name.multicomb, V2.combBaseStep]

/-- C8, code evaluation at the failing input: in the concrete regime,
`dual(tegum(Dyad))` (equally, `Name::polygon(_, 4)` directly) produces
`Generic { n: 4, rank: 2 }`, and `is_valid` rejects it because a `Generic`
requires rank at least 3.  So a name produced purely by public constructors
is invalid. -/
theorem C8_code_eval :
    V1.Name.tegum false 1 .Dyad = some .Orthodiagonal
  ∧ V1.Name.dual false .Orthodiagonal (some 0) = some (.Generic 4 2)
  ∧ V1.Name.polygon (mkData false false) 4 = .Generic 4 2
  ∧ V1.Name.is_valid (.Generic 4 2) = false := by
  refine ⟨?_, ?_, ?_, rfl⟩
  · simp [V1.Name.tegum, V1.Name.orthodiagonal]
  · simp [V1.Name.dual, V1.Name.polygon, mkData]
  · simp [V1.Name.polygon]

/-- C9, code evaluation at the failing input: a concrete-regime panic is
reachable through valid public constructor calls.  Starting from
`generic(5, 3)`, dualize (center 0), take a prism, dualize again (center 1) —
all fine — then dualize once more with a third center (2): the stacked-dual
branch calls `base.facet_count().unwrap()` on a base containing a `Dual`,
whose facet count is unknown, and panics (`none` in this embedding). -/
theorem C9_code_eval :
    V1.Name.generic false 5 3 = .Generic 5 3
  ∧ V1.Name.dual false (.Generic 5 3) (some 0) = some (.Dual (.Generic 5 3) (some 0))
  ∧ V1.Name.prism false 1 (.Dual (.Generic 5 3) (some 0))
      = some (.Prism (.Dual (.Generic 5 3) (some 0)))
  ∧ V1.Name.dual false (.Prism (.Dual (.Generic 5 3) (some 0))) (some 1)
      = some (.Dual (.Prism (.Dual (.Generic 5 3) (some 0))) (some 1))
  ∧ (V1.Name.Prism (.Dual (.Generic 5 3) (some 0))).facet_count = none
  ∧ V1.Name.dual false (.Dual (.Prism (.Dual (.Generic 5 3) (some 0))) (some 1)) (some 2)
      = none := by
  refine ⟨?_, ?_, ?_, ?_, ?_, ?_⟩ <;>
    simp [V1.Name.generic, V1.Name.dual, V1.Name.prism, V1.Name.facet_count,
      V1.Name.rank, eqData, seqOpt, usizeOfIsize]

/-- C10, counterexample: on a hand-built name that already stacks three
`Dual` nodes with phantom (always-equal) centers, `dual` unwraps one level
and hands back a `Dual` whose immediate base is itself a `Dual`. -/
theorem C10_counterexample :
    V1.Name.dual true (.Dual (.Dual (.Dual .Square none) none) none) none
      = some (.Dual (.Dual .Square none) none)
  ∧ V1.noDD (.Dual (.Dual .Square none) none) = false := by
  constructor
  · simp [V1.Name.dual, eqData]
  · rfl

theorem seqOpt_attach_none {α : Type} (bases : List V1.Name) (f : V1.Name → Option α)
    (b : V1.Name) (hb : b ∈ bases) (h : f b = none) :
    seqOpt (bases.attach.map (fun ⟨y, _⟩ => f y)) = none := by
  apply seqOpt_eq_none
  exact List.mem_map.mpr ⟨⟨b, hb⟩, List.mem_attach _ _, h⟩

theorem seqOpt_attach_pairs_none (comps : List (Nat × V1.Name)) (rep : Nat) (nm : V1.Name)
    (hmem : (rep, nm) ∈ comps) (h : nm.facet_count = none) :
    seqOpt (comps.attach.map (fun ⟨(r, m), _⟩ => m.facet_count.map (r * ·))) = none := by
  apply seqOpt_eq_none
  refine List.mem_map.mpr ⟨⟨(rep, nm), hmem⟩, List.mem_attach _ _, ?_⟩
  simp [h]

/-- C6: the facet count of any `Dual`-rooted name is unknown (`None`), and an
unknown facet count propagates as an optional result through every recursive
rule of `facet_count` — the `Multipyramid`/`Multitegum` product, the
`Multiprism`/`Multicomb` sum, the `Pyramid`/`Prism`/`Tegum` closed forms and
the `Compound` weighted sum — so a name that needs the count of a `Dual`
descendant reports `None` rather than failing. -/
theorem C6_facet_count_unknown :
    (∀ (b : V1.Name) (c : Option Pt), (V1.Name.Dual b c).facet_count = none)
  ∧ (∀ (bases : List V1.Name) (b : V1.Name), b ∈ bases → b.facet_count = none →
        (V1.Name.Multipyramid bases).facet_count = none
      ∧ (V1.Name.Multiprism bases).facet_count = none
      ∧ (V1.Name.Multitegum bases).facet_count = none
      ∧ (V1.Name.Multicomb bases).facet_count = none)
  ∧ (∀ (b : V1.Name), b.facet_count = none →
        (V1.Name.Pyramid b).facet_count = none
      ∧ (V1.Name.Prism b).facet_count = none
      ∧ (V1.Name.Tegum b).facet_count = none)
  ∧ (∀ (comps : List (Nat × V1.Name)) (rep : Nat) (nm : V1.Name),
        (rep, nm) ∈ comps → nm.facet_count = none →
        (V1.Name.Compound comps).facet_count = none) := by
  refine ⟨?_, ?_, ?_, ?_⟩
  · intro b c
    simp [V1.Name.facet_count]
  · intro bases b hb h
    have h1 := seqOpt_attach_none bases V1.Name.facet_count b hb h
    simp at h1
    refine ⟨?_, ?_, ?_, ?_⟩ <;> simp [V1.Name.facet_count, h1]
  · intro b h
    refine ⟨?_, ?_, ?_⟩ <;> simp [V1.Name.facet_count, h]
  · intro comps rep nm hmem h
    have h1 := seqOpt_attach_pairs_none comps rep nm hmem h
    simp at h1
    simp [V1.Name.facet_count, h1]

/-- C6, witness: concrete instances of the propagation rules, at a
`Dual(Square)` descendant. -/
theorem C6_facet_count_unknown_witness :
    (V1.Name.Multipyramid [.Dual .Square none, .Point]).facet_count = none
  ∧ (V1.Name.Pyramid (.Dual .Square none)).facet_count = none
  ∧ (V1.Name.Compound [(2, .Dual .Square none)]).facet_count = none := by
  have hd : (V1.Name.Dual .Square none).facet_count = none :=
    C6_facet_count_unknown.1 .Square none
  exact ⟨(C6_facet_count_unknown.2.1 _ _ (by simp) hd).1,
    (C6_facet_count_unknown.2.2.1 _ hd).1,
    C6_facet_count_unknown.2.2.2 _ 2 _ (by simp) hd⟩

/-- C3, amended: in the abstract regime both iterations distribute duality
over the modifiers (`Pyramid` stays `Pyramid`, `Prism` and `Tegum` swap, the
multiproducts likewise).  In the concrete regime the second iteration wraps
the unchanged modifier node in `Dual`; the first iteration instead wraps
`Prism(base)` for all three of `Pyramid`/`Prism`/`Tegum` inputs, and its
`Multipyramid` dual distributes in both regimes rather than wrapping. -/
theorem C3_amended :
    (∀ (ne : Pt → Pt → Bool) (b : V2.Name) (c : Option Pt) (fc rk : Nat),
        V2.Name.dual true ne (.Pyramid b) c fc rk
          = (V2.Name.dual true ne b c fc rk).map .Pyramid)
  ∧ (∀ (ne : Pt → Pt → Bool) (b : V2.Name) (c : Option Pt) (fc rk : Nat),
        V2.Name.dual true ne (.Prism b) c fc rk
          = (V2.Name.dual true ne b c fc rk).map .Tegum)
  ∧ (∀ (ne : Pt → Pt → Bool) (b : V2.Name) (c : Option Pt) (fc rk : Nat),
        V2.Name.dual true ne (.Tegum b) c fc rk
          = (V2.Name.dual true ne b c fc rk).map .Prism)
  ∧ (∀ (ne : Pt → Pt → Bool) (bs : List V2.Name) (c : Option Pt) (fc rk : Nat),
        V2.Name.dual true ne (.Multipyramid bs) c fc rk
          = (V2.Name.dualList true ne bs c fc rk).map .Multipyramid)
  ∧ (∀ (ne : Pt → Pt → Bool) (bs : List V2.Name) (c : Option Pt) (fc rk : Nat),
        V2.Name.dual true ne (.Multiprism bs) c fc rk
          = (V2.Name.dualList true ne bs c fc rk).map .Multitegum)
  ∧ (∀ (ne : Pt → Pt → Bool) (bs : List V2.Name) (c : Option Pt) (fc rk : Nat),
        V2.Name.dual true ne (.Multitegum bs) c fc rk
          = (V2.Name.dualList true ne bs c fc rk).map .Multiprism)
  ∧ (∀ (ne : Pt → Pt → Bool) (bs : List V2.Name) (c : Option Pt) (fc rk : Nat),
        V2.Name.dual true ne (.Multicomb bs) c fc rk
          = (V2.Name.dualList true ne bs c fc rk).map .Multicomb)
  ∧ (∀ (ne : Pt → Pt → Bool) (b : V2.Name) (c : Option Pt) (fc rk : Nat),
        V2.Name.dual false ne (.Pyramid b) c fc rk = some (.Dual (.Pyramid b) c))
  ∧ (∀ (ne : Pt → Pt → Bool) (b : V2.Name) (c : Option Pt) (fc rk : Nat),
        V2.Name.dual false ne (.Prism b) c fc rk = some (.Dual (.Prism b) c))
  ∧ (∀ (ne : Pt → Pt → Bool) (b : V2.Name) (c : Option Pt) (fc rk : Nat),
        V2.Name.dual false ne (.Tegum b) c fc rk = some (.Dual (.Tegum b) c))
  ∧ (∀ (ne : Pt → Pt → Bool) (bs : List V2.Name) (c : Option Pt) (fc rk : Nat),
        V2.Name.dual false ne (.Multipyramid bs) c fc rk
          = some (.Dual (.Multipyramid bs) c))
  ∧ (∀ (ne : Pt → Pt → Bool) (bs : List V2.Name) (c : Option Pt) (fc rk : Nat),
        V2.Name.dual false ne (.Multiprism bs) c fc rk
          = some (.Dual (.Multiprism bs) c))
  ∧ (∀ (ne : Pt → Pt → Bool) (bs : List V2.Name) (c : Option Pt) (fc rk : Nat),
        V2.Name.dual false ne (.Multitegum bs) c fc rk
          = some (.Dual (.Multitegum bs) c))
  ∧ (∀ (ne : Pt → Pt → Bool) (bs : List V2.Name) (c : Option Pt) (fc rk : Nat),
        V2.Name.dual false ne (.Multicomb bs) c fc rk
          = some (.Dual (.Multicomb bs) c))
  ∧ (∀ (b : V1.Name) (c : Option Pt),
        V1.Name.dual true (.Pyramid b) c = (V1.Name.dual true b c).map .Pyramid)
  ∧ (∀ (b : V1.Name) (c : Option Pt),
        V1.Name.dual true (.Prism b) c = (V1.Name.dual true b c).map .Tegum)
  ∧ (∀ (b : V1.Name) (c : Option Pt),
        V1.Name.dual true (.Tegum b) c = (V1.Name.dual true b c).map .Prism)
  ∧ (∀ (abs : Bool) (bs : List V1.Name) (c : Option Pt),
        V1.Name.dual abs (.Multipyramid bs) c
          = (V1.Name.dualList abs bs c).map .Multipyramid)
  ∧ (∀ (bs : List V1.Name) (c : Option Pt),
        V1.Name.dual true (.Multiprism bs) c
          = (V1.Name.dualList true bs c).map .Multitegum)
  ∧ (∀ (bs : List V1.Name) (c : Option Pt),
        V1.Name.dual true (.Multitegum bs) c
          = (V1.Name.dualList true bs c).map .Multiprism)
  ∧ (∀ (bs : List V1.Name) (c : Option Pt),
        V1.Name.dual true (.Multicomb bs) c
          = (V1.Name.dualList true bs c).map .Multicomb)
  ∧ (∀ (b : V1.Name) (c : Option Pt),
        V1.Name.dual false (.Pyramid b) c = some (.Dual (.Prism b) c))
  ∧ (∀ (b : V1.Name) (c : Option Pt),
        V1.Name.dual false (.Prism b) c = some (.Dual (.Prism b) c))
  ∧ (∀ (b : V1.Name) (c : Option Pt),
        V1.Name.dual false (.Tegum b) c = some (.Dual (.Prism b) c))
  ∧ (∀ (bs : List V1.Name) (c : Option Pt),
        V1.Name.dual false (.Multiprism bs) c = some (.Dual (.Multiprism bs) c))
  ∧ (∀ (bs : List V1.Name) (c : Option Pt),
        V1.Name.dual false (.Multitegum bs) c = some (.Dual (.Multitegum bs) c))
  ∧ (∀ (bs : List V1.Name) (c : Option Pt),
        V1.Name.dual false (.Multicomb bs) c = some (.Dual (.Multicomb bs) c)) := by
  refine ⟨?_, ?_, ?_, ?_, ?_, ?_, ?_, ?_, ?_, ?_, ?_, ?_, ?_, ?_, ?_, ?_, ?_, ?_,
    ?_, ?_, ?_, ?_, ?_, ?_, ?_, ?_, ?_⟩ <;>
    intros <;> simp [V1.Name.dual, V2.Name.dual]

/-- C4, amended: dualizing a stacked `Dual` with the same center unwraps to
the inner base in both iterations (with phantom abstract centers always
comparing equal).  With a different center the result is a `Generic`: in the
first iteration it is built from the inner base's own facet count and rank
(and panics when either is unknown); in the second, from the caller-supplied
facet count and rank. -/
theorem C4_amended :
    (∀ (abs : Bool) (b : V1.Name) (oc c : Option Pt), eqData c oc = true →
        V1.Name.dual abs (.Dual b oc) c = some b)
  ∧ (∀ (abs : Bool) (b : V1.Name) (oc c : Option Pt) (n : Nat) (r : Int),
        eqData c oc = false → b.facet_count = some n → b.rank = some r →
        V1.Name.dual abs (.Dual b oc) c = some (.Generic n (usizeOfIsize r)))
  ∧ (∀ (abs : Bool) (ne : Pt → Pt → Bool) (b : V2.Name) (oc c : Option Pt) (fc rk : Nat),
        V2.eqOr c oc true = some true →
        V2.Name.dual abs ne (.Dual b oc) c fc rk = some b)
  ∧ (∀ (abs : Bool) (ne : Pt → Pt → Bool) (b : V2.Name) (oc c : Option Pt) (fc rk : Nat),
        V2.eqOr c oc true = some false →
        V2.Name.dual abs ne (.Dual b oc) c fc rk = some (.Generic fc rk)) := by
  refine ⟨?_, ?_, ?_, ?_⟩
  · intro abs b oc c h
    simp [V1.Name.dual, h]
  · intro abs b oc c n r h h1 h2
    simp [V1.Name.dual, h, h1, h2]
  · intro abs ne b oc c fc rk h
    simp [V2.Name.dual, h]
  · intro abs ne b oc c fc rk h
    simp [V2.Name.dual, h]

/-- C4, witness: concrete instances of all four branches. -/
theorem C4_amended_witness :
    V1.Name.dual true (.Dual .Square none) none = some .Square
  ∧ V1.Name.dual false (.Dual .Square (some 0)) (some 1)
      = some (.Generic 4 (usizeOfIsize 2))
  ∧ V2.Name.dual false (fun _ _ => true) (.Dual .Dyad (some 0)) (some 0) 7 5 = some .Dyad
  ∧ V2.Name.dual false (fun _ _ => true) (.Dual .Dyad (some 0)) (some 1) 7 5
      = some (.Generic 7 5) := by
  exact ⟨C4_amended.1 true .Square none none rfl,
    C4_amended.2.1 false .Square (some 0) (some 1) 4 2 rfl (by simp [V1.Name.facet_count])
      (by simp [V1.Name.rank]),
    C4_amended.2.2.1 false _ .Dyad (some 0) (some 0) 7 5 (by simp [V2.eqOr]),
    C4_amended.2.2.2 false _ .Dyad (some 0) (some 1) 7 5 (by simp [V2.eqOr])⟩

/-- C2, amended: in the first iteration, applying `pyramid` three times to
`Point` yields the hardcoded `Simplex` of rank 3 in both regimes (for any
fuel).  In the second iteration's concrete regime it yields the simplex atom
of its shifted convention, `Simplex{rank: 4}`; in its abstract regime it
instead yields the single wrapper `Pyramid(Triangle)`, because abstract data
makes the triangle pass for regular. -/
theorem C2_amended :
    (∀ f1 f2 f3 : Nat,
      ((V1.Name.pyramid true (f1 + 1) .Point).bind (V1.Name.pyramid true (f2 + 1))).bind
          (V1.Name.pyramid true (f3 + 1))
        = some (.Simplex none 3))
  ∧ (∀ f1 f2 f3 : Nat,
      ((V1.Name.pyramid false (f1 + 1) .Point).bind (V1.Name.pyramid false (f2 + 1))).bind
          (V1.Name.pyramid false (f3 + 1))
        = some (.Simplex (some false) 3))
  ∧ V2.Name.pyramid false (V2.Name.pyramid false (V2.Name.pyramid false .Point))
      = .Simplex (some .No) 4
  ∧ V2.Name.pyramid true (V2.Name.pyramid true (V2.Name.pyramid true .Point))
      = .Pyramid (.Triangle none) := by
  refine ⟨?_, ?_, ?_, ?_⟩
  · intro f1 f2 f3
    have h1 : V1.Name.pyramid true (f1 + 1) .Point = some .Dyad := by
      simp [V1.Name.pyramid]
    have h2 : V1.Name.pyramid true (f2 + 1) .Dyad = some (.Triangle none) := by
      simp [V1.Name.pyramid, mkData]
    have h3 : V1.Name.pyramid true (f3 + 1) (.Triangle none) = some (.Simplex none 3) := by
      simp [V1.Name.pyramid]
    rw [h1]
    show (V1.Name.pyramid true (f2 + 1) .Dyad).bind (V1.Name.pyramid true (f3 + 1))
        = some (.Simplex none 3)
    rw [h2]
    show V1.Name.pyramid true (f3 + 1) (.Triangle none) = some (.Simplex none 3)
    exact h3
  · intro f1 f2 f3
    have h1 : V1.Name.pyramid false (f1 + 1) .Point = some .Dyad := by
      simp [V1.Name.pyramid]
    have h2 : V1.Name.pyramid false (f2 + 1) .Dyad = some (.Triangle (some false)) := by
      simp [V1.Name.pyramid, mkData]
    have h3 : V1.Name.pyramid false (f3 + 1) (.Triangle (some false))
        = some (.Simplex (some false) 3) := by
      simp [V1.Name.pyramid]
    rw [h1]
    show (V1.Name.pyramid false (f2 + 1) .Dyad).bind (V1.Name.pyramid false (f3 + 1))
        = some (.Simplex (some false) 3)
    rw [h2]
    show V1.Name.pyramid false (f3 + 1) (.Triangle (some false))
        = some (.Simplex (some false) 3)
    exact h3
  · simp [V2.Name.pyramid, V2.defaultRegular, V2.isOr]
  · simp [V2.Name.pyramid, V2.defaultRegular, V2.isOr]

/-- C7, amended: a `Nullitope` among the bases short-circuits `multiprism`
and `multitegum` to `Nullitope`, and `multipyramid` ignores `Nullitope`
bases entirely (the result equals the multipyramid of the remaining bases);
`multicomb`, however, does not short-circuit (see the counterexample). -/
theorem C7_amended :
    (∀ (abs : Bool) (fuel : Nat) (bases : List V1.Name), V1.Name.Nullitope ∈ bases →
        V1.Name.multiprism abs (fuel + 1) bases = some .Nullitope)
  ∧ (∀ (abs : Bool) (fuel : Nat) (bases : List V1.Name), V1.Name.Nullitope ∈ bases →
        V1.Name.multitegum abs (fuel + 1) bases = some .Nullitope)
  ∧ (∀ (abs : Bool) (fuel : Nat) (bases : List V1.Name),
        V1.Name.multipyramid abs (fuel + 1) bases
          = V1.Name.multipyramid abs (fuel + 1) (bases.filter (fun b => !b.is_nullitope))) := by
  refine ⟨?_, ?_, ?_⟩
  · intro abs fuel bases h
    simp [V1.Name.multiprism, V1.foldl_prism_nulli bases h]
  · intro abs fuel bases h
    simp [V1.Name.multitegum, V1.foldl_tegum_nulli bases h]
  · intro abs fuel bases
    have hst := V1.foldl_pyr_filter bases ([], 0)
    simp only [V1.Name.multipyramid, hst]

/-- C7, witness: concrete instances — products with a nullitope factor
collapse, and the pyramid fold ignores the nullitope. -/
theorem C7_amended_witness :
    V1.Name.multiprism true 1 [.Nullitope, .Square] = some .Nullitope
  ∧ V1.Name.multitegum true 1 [.Nullitope, .Square] = some .Nullitope
  ∧ V1.Name.multipyramid true 1 [.Nullitope, .Square]
      = V1.Name.multipyramid true 1 ([.Nullitope, .Square].filter (fun b => !b.is_nullitope)) := by
  exact ⟨C7_amended.1 true 0 _ (by simp), C7_amended.2.1 true 0 _ (by simp),
    C7_amended.2.2 true 0 _⟩

/-- C5, amended: rank additivity holds for each of `pyramid`, `prism`,
`tegum` on every name of known rank whose head is not the `Nullitope` (which
the operation collapses or absorbs) and not the operation's own wrapper or
multi-wrapper variant (where the first iteration can miscount an absorbed
`Triangle` or fail to terminate): on all other heads the operation returns
(with any fuel) a name whose rank is exactly one higher. -/
theorem C5_amended (abs : Bool) (fuel : Nat) (n : V1.Name) (r : Int)
    (hr : n.rank = some r) :
    (V1.headOkPyr n = true →
      ∃ m, V1.Name.pyramid abs (fuel + 1) n = some m ∧ m.rank = some (r + 1))
  ∧ (V1.headOkPrism n = true →
      ∃ m, V1.Name.prism abs (fuel + 1) n = some m ∧ m.rank = some (r + 1))
  ∧ (V1.headOkTegum n = true →
      ∃ m, V1.Name.tegum abs (fuel + 1) n = some m ∧ m.rank = some (r + 1)) := by
  cases n <;>
    simp_all [V1.headOkPyr, V1.headOkPrism, V1.headOkTegum, V1.Name.pyramid,
      V1.Name.prism, V1.Name.tegum, V1.Name.rank, V1.Name.rectangle,
      V1.Name.orthodiagonal, mkData, containsData]
  all_goals
    first
      | omega
      | (obtain ⟨a, ha, h2⟩ := hr; exact ⟨a, ha, by omega⟩)
      | (split_ifs <;> simp_all [V1.Name.rank] <;> omega)

/-- C5, witness: all three operations at a `Square` (rank 2). -/
theorem C5_amended_witness :
    (∃ m, V1.Name.pyramid true 1 .Square = some m ∧ m.rank = some (2 + 1))
  ∧ (∃ m, V1.Name.prism true 1 .Square = some m ∧ m.rank = some (2 + 1))
  ∧ (∃ m, V1.Name.tegum true 1 .Square = some m ∧ m.rank = some (2 + 1)) := by
  have h := C5_amended true 0 .Square 2 (by simp [V1.Name.rank])
  exact ⟨h.1 rfl, h.2.1 rfl, h.2.2 rfl⟩

/-- C10, amended: `dual` never builds a new `Dual` node whose immediate base
is a `Dual` node.  Precisely: on any input containing no stacked dual-of-dual
anywhere (an invariant of constructor-produced names), the result — when the
operation returns — again contains none; the original unrestricted claim
fails only because the matching-center branch can hand back a nested dual
that was already inside the input. -/
theorem C10_amended (abs : Bool) (n : V1.Name) (c : Option Pt) (m : V1.Name)
    (hn : V1.noDD n = true) (h : V1.Name.dual abs n c = some m) :
    V1.noDD m = true := by
  have main : ∀ (x : V1.Name) (y : Option Pt), ∀ m', V1.noDD x = true →
      V1.Name.dual abs x y = some m' → V1.noDD m' = true := by
    refine V1.Name.dual.induct abs
      (fun x y => ∀ m', V1.noDD x = true → V1.Name.dual abs x y = some m' →
        V1.noDD m' = true)
      (fun bs y => ∀ ms, V1.noDDList bs = true → V1.Name.dualList abs bs y = some ms →
        V1.noDDList ms = true)
      ?_ ?_ ?_ ?_ ?_ ?_ ?_ ?_ ?_ ?_ ?_ ?_ ?_ ?_ ?_ ?_ ?_ ?_ ?_ ?_ ?_ ?_ ?_ ?_ ?_ ?_ ?_ ?_ ?_
    · intro x m' _ h
      simp only [V1.Name.dual, Option.some.injEq] at h
      subst h
      rfl
    · intro x m' _ h
      simp only [V1.Name.dual, Option.some.injEq] at h
      subst h
      rfl
    · intro x m' _ h
      simp only [V1.Name.dual, Option.some.injEq] at h
      subst h
      rfl
    · intro base oc center heq m' hn h
      simp only [V1.Name.dual, heq, if_true, Option.some.injEq] at h
      subst h
      simp only [V1.noDD, Bool.and_eq_true] at hn
      exact hn.2
    · intro base oc center heq m' _ h
      simp only [V1.Name.dual, if_neg heq, Option.bind_eq_some] at h
      obtain ⟨fc, _, h⟩ := h
      rw [Option.map_eq_some'] at h
      obtain ⟨r, _, h⟩ := h
      subst h
      rfl
    · intro x m' _ h
      simp only [V1.Name.dual, Option.some.injEq] at h
      subst h
      cases abs <;> rfl
    · intro x m' _ h
      simp only [V1.Name.dual, Option.some.injEq] at h
      subst h
      cases abs <;> rfl
    · intro x m' _ h
      simp only [V1.Name.dual, Option.some.injEq] at h
      subst h
      cases abs <;> rfl
    · intro regular rank x m' _ h
      simp only [V1.Name.dual, Option.some.injEq] at h
      subst h
      rfl
    · intro regular rank x m' _ h
      simp only [V1.Name.dual, Option.some.injEq] at h
      subst h
      rfl
    · intro regular rank x m' _ h
      simp only [V1.Name.dual, Option.some.injEq] at h
      subst h
      rfl
    · intro k rank center hle m' _ h
      simp only [V1.Name.dual, if_pos hle, Option.some.injEq] at h
      subst h
      rfl
    · intro k rank center hle m' _ h
      simp only [V1.Name.dual, if_neg hle, Option.some.injEq] at h
      subst h
      rfl
    · intro base center habs ih m' hn h
      simp only [V1.Name.dual, if_pos habs, Option.map_eq_some'] at h
      obtain ⟨d, hd, h⟩ := h
      subst h
      simp only [V1.noDD] at hn ⊢
      exact ih d hn hd
    · intro base center habs m' hn h
      simp only [V1.Name.dual, if_neg habs, Option.some.injEq] at h
      subst h
      simp_all [V1.noDD, V1.Name.is_dual]
    · intro base center habs ih m' hn h
      simp only [V1.Name.dual, if_pos habs, Option.map_eq_some'] at h
      obtain ⟨d, hd, h⟩ := h
      subst h
      simp only [V1.noDD] at hn ⊢
      exact ih d hn hd
    · intro base center habs m' hn h
      simp only [V1.Name.dual, if_neg habs, Option.some.injEq] at h
      subst h
      simp_all [V1.noDD, V1.Name.is_dual]
    · intro base center habs ih m' hn h
      simp only [V1.Name.dual, if_pos habs, Option.map_eq_some'] at h
      obtain ⟨d, hd, h⟩ := h
      subst h
      simp only [V1.noDD] at hn ⊢
      exact ih d hn hd
    · intro base center habs m' hn h
      simp only [V1.Name.dual, if_neg habs, Option.some.injEq] at h
      subst h
      simp_all [V1.noDD, V1.Name.is_dual]
    · intro bases center ih m' hn h
      simp only [V1.Name.dual, Option.map_eq_some'] at h
      obtain ⟨ms, hms, h⟩ := h
      subst h
      simp only [V1.noDD] at hn ⊢
      exact ih ms hn hms
    · intro bases center habs ih m' hn h
      simp only [V1.Name.dual, if_pos habs, Option.map_eq_some'] at h
      obtain ⟨ms, hms, h⟩ := h
      subst h
      simp only [V1.noDD] at hn ⊢
      exact ih ms hn hms
    · intro bases center habs m' hn h
      simp only [V1.Name.dual, if_neg habs, Option.some.injEq] at h
      subst h
      simp_all [V1.noDD, V1.Name.is_dual]
    · intro bases center habs ih m' hn h
      simp only [V1.Name.dual, if_pos habs, Option.map_eq_some'] at h
      obtain ⟨ms, hms, h⟩ := h
      subst h
      simp only [V1.noDD] at hn ⊢
      exact ih ms hn hms
    · intro bases center habs m' hn h
      simp only [V1.Name.dual, if_neg habs, Option.some.injEq] at h
      subst h
      simp_all [V1.noDD, V1.Name.is_dual]
    · intro bases center habs ih m' hn h
      simp only [V1.Name.dual, if_pos habs, Option.map_eq_some'] at h
      obtain ⟨ms, hms, h⟩ := h
      subst h
      simp only [V1.noDD] at hn ⊢
      exact ih ms hn hms
    · intro bases center habs m' hn h
      simp only [V1.Name.dual, if_neg habs, Option.some.injEq] at h
      subst h
      simp_all [V1.noDD, V1.Name.is_dual]
    · intro nn center h1 h2 h3 h4 h5 h6 h7 h8 h9 h10 h11 h12 h13 h14 h15 h16 h17 h18 m' hn h
      cases nn <;>
        first
          | exact (h1 rfl).elim
          | exact (h2 rfl).elim
          | exact (h3 rfl).elim
          | exact (h4 _ _ rfl).elim
          | exact (h5 rfl).elim
          | exact (h6 rfl).elim
          | exact (h7 rfl).elim
          | exact (h8 _ _ rfl).elim
          | exact (h9 _ _ rfl).elim
          | exact (h10 _ _ rfl).elim
          | exact (h11 _ _ rfl).elim
          | exact (h12 _ rfl).elim
          | exact (h13 _ rfl).elim
          | exact (h14 _ rfl).elim
          | exact (h15 _ rfl).elim
          | exact (h16 _ rfl).elim
          | exact (h17 _ rfl).elim
          | exact (h18 _ rfl).elim
          | (simp only [V1.Name.dual, Option.some.injEq] at h
             subst h
             simp_all [V1.noDD, V1.Name.is_dual])
    · intro x ms _ hms
      simp only [V1.Name.dualList, Option.some.injEq] at hms
      subst hms
      rfl
    · intro b bs center ih1 ih2 ms hl hms
      simp only [V1.Name.dualList, Option.bind_eq_some] at hms
      obtain ⟨d, hd, hms⟩ := hms
      rw [Option.map_eq_some'] at hms
      obtain ⟨ds, hds, hms⟩ := hms
      subst hms
      simp only [V1.noDDList, Bool.and_eq_true] at hl ⊢
      exact ⟨ih1 d hl.1 hd, ih2 ds hl.2 hds⟩
  exact main n c m hn h

/-- C10, witness: the concrete dual of a square (an input with no nested
dual) again has no nested dual. -/
theorem C10_amended_witness : V1.noDD (.Generic 4 2) = true := by
  exact C10_amended false .Orthodiagonal (some 0) (.Generic 4 2) rfl
    (by simp [V1.Name.dual, V1.Name.polygon, mkData])

theorem multipyramid_of_fold (abs : Bool) (fuel : Nat) (l nb : List V1.Name)
    (hst : l.foldl V1.pyrBaseStep ([], 0) = (nb, 0)) (hlen : 2 ≤ nb.length) :
    V1.Name.multipyramid abs (fuel + 1) l = some (.Multipyramid (V1.sortBases nb)) := by
  have hlen2 : 2 ≤ (V1.sortBases nb).length := by
    rw [(V1.sortBases_perm nb).length_eq]
    exact hlen
  obtain ⟨x, y, rest, hxy⟩ : ∃ x y rest, V1.sortBases nb = x :: y :: rest := by
    rcases hs : V1.sortBases nb with _ | ⟨x, _ | ⟨y, rest⟩⟩
    · rw [hs] at hlen2
      simp at hlen2
    · rw [hs] at hlen2
      simp at hlen2
    · exact ⟨x, y, rest, rfl⟩
  simp only [V1.Name.multipyramid, hst]
  norm_num
  rw [hxy]

theorem multipyramid_irred (abs : Bool) (fuel : Nat) (l : List V1.Name)
    (hl : ∀ x ∈ l, V1.irredPyr x = true) (hlen : 2 ≤ l.length) :
    V1.Name.multipyramid abs (fuel + 1) l = some (.Multipyramid (V1.sortBases l)) := by
  refine multipyramid_of_fold abs fuel l l ?_ hlen
  simpa using V1.foldl_pyr_irred l ([], 0) hl

/-- C1, amended: `multipyramid` is associative and order-independent for
bases of known rank as long as the bases are irreducible for pyramid folding
and no two of them tie on the `(rank, facet count)` sort key: the flat call,
the reversed call and the nested call all produce the identical sorted
`Multipyramid` tree.  (With tied keys the stable sort keeps the input order
and the claim fails — see the counterexample.) -/
theorem C1_amended (abs : Bool) (fuel : Nat) (a b c : V1.Name)
    (hra : a.rank.isSome = true) (hrb : b.rank.isSome = true) (hrc : c.rank.isSome = true)
    (ha : V1.irredPyr a = true) (hb : V1.irredPyr b = true) (hc : V1.irredPyr c = true)
    (kab : V1.key a ≠ V1.key b) (kac : V1.key a ≠ V1.key c) (kbc : V1.key b ≠ V1.key c) :
    V1.Name.multipyramid abs (fuel + 1) [a, b, c]
      = some (.Multipyramid (V1.sortBases [a, b, c]))
  ∧ V1.Name.multipyramid abs (fuel + 1) [c, b, a]
      = some (.Multipyramid (V1.sortBases [a, b, c]))
  ∧ V1.Name.multipyramid abs (fuel + 1) [a, b]
      = some (.Multipyramid (V1.sortBases [a, b]))
  ∧ V1.Name.multipyramid abs (fuel + 1) [.Multipyramid (V1.sortBases [a, b]), c]
      = some (.Multipyramid (V1.sortBases [a, b, c])) := by
  have hpair : [a, b, c].Pairwise (fun x y => V1.key x ≠ V1.key y) := by
    simp [List.pairwise_cons, kab, kac, kbc]
  have hperm3 : ([c, b, a] : List V1.Name).Perm [a, b, c] := by
    have s1 : ([c, b, a] : List V1.Name).Perm [b, c, a] := List.Perm.swap b c [a]
    have s2 : ([b, c, a] : List V1.Name).Perm [b, a, c] :=
      List.Perm.cons b (List.Perm.swap a c [])
    have s3 : ([b, a, c] : List V1.Name).Perm [a, b, c] := List.Perm.swap a b [c]
    exact (s1.trans s2).trans s3
  refine ⟨?_, ?_, ?_, ?_⟩
  · refine multipyramid_irred abs fuel [a, b, c] ?_ (by simp)
    intro x hx
    rcases List.mem_cons.mp hx with rfl | hx
    · exact ha
    rcases List.mem_cons.mp hx with rfl | hx
    · exact hb
    rcases List.mem_cons.mp hx with rfl | hx
    · exact hc
    cases hx
  · have h1 : V1.Name.multipyramid abs (fuel + 1) [c, b, a]
        = some (.Multipyramid (V1.sortBases [c, b, a])) := by
      refine multipyramid_irred abs fuel [c, b, a] ?_ (by simp)
      intro x hx
      rcases List.mem_cons.mp hx with rfl | hx
      · exact hc
      rcases List.mem_cons.mp hx with rfl | hx
      · exact hb
      rcases List.mem_cons.mp hx with rfl | hx
      · exact ha
      cases hx
    rw [h1, V1.sortBases_eq_of_perm hperm3
      ((List.Perm.pairwise_iff (fun h e => h e.symm) hperm3.symm).mp hpair)]
  · refine multipyramid_irred abs fuel [a, b] ?_ (by simp)
    intro x hx
    rcases List.mem_cons.mp hx with rfl | hx
    · exact ha
    rcases List.mem_cons.mp hx with rfl | hx
    · exact hb
    cases hx
  · have hstep : ([(V1.Name.Multipyramid (V1.sortBases [a, b])), c].foldl
        V1.pyrBaseStep ([], 0)) = (V1.sortBases [a, b] ++ [c], 0) := by
      rw [List.foldl_cons]
      have h1 : V1.pyrBaseStep ([], 0) (.Multipyramid (V1.sortBases [a, b]))
          = (V1.sortBases [a, b], 0) := by
        simp [V1.pyrBaseStep]
      rw [h1, List.foldl_cons, V1.pyrBaseStep_irred _ c hc, List.foldl_nil]
    have hperm4 : (V1.sortBases [a, b] ++ [c]).Perm [a, b, c] := by
      have : (V1.sortBases [a, b] ++ [c]).Perm ([a, b] ++ [c]) :=
        (V1.sortBases_perm [a, b]).append_right [c]
      simpa using this
    have hlen : 2 ≤ (V1.sortBases [a, b] ++ [c]).length := by
      have := hperm4.length_eq
      simp at this
      simp [this]
    rw [multipyramid_of_fold abs fuel _ _ hstep hlen,
      V1.sortBases_eq_of_perm hperm4
        ((List.Perm.pairwise_iff (fun h e => h e.symm) hperm4.symm).mp hpair)]

/-- C1, witness: three concrete irreducible bases of known, pairwise
distinct ranks. -/
theorem C1_amended_witness :
    V1.Name.multipyramid true 1 [.Square, .Generic 5 3, .Generic 9 4]
      = some (.Multipyramid (V1.sortBases [.Square, .Generic 5 3, .Generic 9 4]))
  ∧ V1.Name.multipyramid true 1 [.Generic 9 4, .Generic 5 3, .Square]
      = some (.Multipyramid (V1.sortBases [.Square, .Generic 5 3, .Generic 9 4]))
  ∧ V1.Name.multipyramid true 1 [.Square, .Generic 5 3]
      = some (.Multipyramid (V1.sortBases [.Square, .Generic 5 3]))
  ∧ V1.Name.multipyramid true 1
        [.Multipyramid (V1.sortBases [.Square, .Generic 5 3]), .Generic 9 4]
      = some (.Multipyramid (V1.sortBases [.Square, .Generic 5 3, .Generic 9 4])) := by
  exact C1_amended true 0 .Square (.Generic 5 3) (.Generic 9 4)
    (by simp [V1.Name.rank]) (by simp [V1.Name.rank]) (by simp [V1.Name.rank])
    rfl rfl rfl
    (by simp [V1.key, V1.Name.rank, V1.Name.facet_count])
    (by simp [V1.key, V1.Name.rank, V1.Name.facet_count])
    (by simp [V1.key, V1.Name.rank, V1.Name.facet_count])
